import Mathlib

/-!
Verification development for the autoria-scraper crawl-fetch-parse-persist
pipeline (src/scraper.py), as a shallow embedding in Lean.

Strings are Lean strings; the regexes ODOMETER_RE and DIGITS_RE are both
the pattern matching runs of non-digit characters, so substituting them by
the empty string is the character filter keeping digits.  Python int() is
modelled as an Option-valued parser (none models ValueError).  HTTP and
HTML are abstracted by oracles: a fetch attempt's outcome, a detail page's
pre-selected text nodes.  The database store is a list of rows.
-/

namespace AutoRia

/-! ## String normalisation helpers (scraper.py lines 20-40) -/

/-- Models ODOMETER_RE.sub("", s) and DIGITS_RE.sub("", s): both regexes
match maximal runs of non-digit characters, so the substitution keeps
exactly the digit characters of s in order. -/
def stripNonDigits (s : String) : String := ⟨s.data.filter Char.isDigit⟩

/-- Models the Python builtin int(s) on the argument shapes reachable in
scraper.py, where s is always an output of stripNonDigits: it succeeds
exactly on nonempty all-digit strings, returning their decimal value;
none models a raised ValueError.  (Sign and whitespace handling of the
builtin is unreachable here and omitted.) -/
def pyInt (s : String) : Option Nat :=
  if s.data ≠ [] ∧ s.data.all Char.isDigit then
    some (s.data.foldl (fun a c => a * 10 + (c.toNat - 48)) 0)
  else none

/-- Models the Python expression int(x or 0) for a string x: the empty
string is falsy, so the argument of int() is then the integer 0. -/
def pyIntOrZero (s : String) : Option Nat :=
  if s = "" then some 0 else pyInt s

/-- Models the Python expression a or b for strings: the empty string is
falsy and selects b. -/
def pyOr (a b : String) : String :=
  if a = "" then b else a

/-- def parse_odometer(text):
      n = int(ODOMETER_RE.sub("", text) or 0)
      return n * 1000 if n < 1000 else n -/
def parse_odometer (text : String) : Option Nat := do
  let n ← pyIntOrZero (stripNonDigits text)
  pure (if n < 1000 then n * 1000 else n)

/-- def only_digits(text): return DIGITS_RE.sub("", text or "").
The argument is Option String so that a Python None input (handled by
the `text or ""` guard) is representable. -/
def only_digits (text : Option String) : String :=
  stripNonDigits (text.getD "")

/-! ## Field extractor (scraper.py parse_car, lines 96-128)

BeautifulSoup selection is abstracted: a Doc holds, for each CSS selector
parse_car uses, the stripped text of the first matching element (none when
no element matches), the one img node it inspects, and the count of
gallery thumbnails. -/

/-- The img element selected by "span.picture img": its data-src and src
attributes, each none when absent (node.get returns None). -/
structure ImgNode where
  dataSrc : Option String
  src : Option String
deriving DecidableEq, Repr

/-- One detail-page document, pre-selected: each field is the first node
matched by the corresponding selector in parse_car. -/
structure Doc where
  h1 : Option String
  sidePriceStrong : Option String
  priceValueStrong : Option String
  basicInfoOdo : Option String
  sellerName : Option String
  phoneSpan : Option String
  pictureImg : Option ImgNode
  previewGalleryCount : Nat
  carNumber : Option String
  carVin : Option String
deriving DecidableEq, Repr

/-- def safe_text(node, default=""): return node.get_text(strip=True) if node else default.
A present node is represented by its stripped text. -/
def safe_text (node : Option String) (default : String := "") : String :=
  match node with
  | some t => t
  | none => default

/-- def safe_attr(node, attr, default=""): if not node: return default; return node.get(attr) or default.
The attribute accessor stands for the attr name; node.get(attr) is none
when the attribute is absent, and an empty value is falsy. -/
def safe_attr (node : Option ImgNode) (attr : ImgNode → Option String)
    (default : String := "") : String :=
  match node with
  | none => default
  | some n =>
    match attr n with
    | some v => if v = "" then default else v
    | none => default

/-- The Listing Record built by parse_car.  datetime_found is an abstract
timestamp (datetime.now() at extraction time). -/
structure Car where
  url : String
  title : String
  price_usd : Nat
  odometer : Nat
  username : String
  phone_number : String
  image_url : String
  images_count : Nat
  car_number : String
  car_vin : String
  datetime_found : Nat
deriving DecidableEq, Repr

/-- async def parse_car(html, url) -> dict, embedded over a pre-selected
Doc; `now` is the wall clock read by datetime.now().  The two int()
calls may in principle raise, so the result is Option-valued; totality
is a theorem, not an assumption. -/
def parse_car (d : Doc) (url : String) (now : Nat) : Option Car := do
  let title := safe_text d.h1
  let price_raw := pyOr (safe_text d.sidePriceStrong) (safe_text d.priceValueStrong)
  let odo_raw := safe_text d.basicInfoOdo
  let username := safe_text d.sellerName
  let phone_raw := safe_text d.phoneSpan
  let price_usd ← pyIntOrZero (only_digits (some price_raw))
  let odometer ← if odo_raw ≠ "" then parse_odometer odo_raw else pure 0
  pure
    { url := url
      title := title
      price_usd := price_usd
      odometer := odometer
      username := username
      phone_number := only_digits (some phone_raw)
      image_url := pyOr (safe_attr d.pictureImg ImgNode.dataSrc)
        (safe_attr d.pictureImg ImgNode.src)
      images_count := d.previewGalleryCount
      car_number := safe_text d.carNumber
      car_vin := safe_text d.carVin
      datetime_found := now }

/-! ## Resilient fetcher (scraper.py fetch, lines 25 and 57-93)

One call of fetch makes up to MAX_RETRIES attempts.  Each attempt's HTTP
outcome is given by an oracle indexed by the 1-based attempt number: a
network-level failure or timeout (aiohttp.ClientError / asyncio.TimeoutError,
identified by a tag), or a response with a status and a body.  Control flow
mirrors the source: statuses 403 and 429 back off and continue without
touching last_exc; r.raise_for_status() raises ClientResponseError exactly
when status >= 400, and that exception - being a ClientError - is caught
by the same except clause as network errors, recorded in last_exc, and
retried; any other response returns its body.  After the loop a
RuntimeError is raised from last_exc. -/

def MAX_RETRIES : Nat := 3

/-- Outcome of one session.get attempt, as seen by fetch. -/
inductive Outcome where
  /-- aiohttp.ClientError or asyncio.TimeoutError raised by the request
  itself; the tag identifies the exception object. -/
  | netErr (tag : Nat)
  /-- A response arrived with this status and body text. -/
  | resp (status : Nat) (body : String)
deriving DecidableEq, Repr

/-- An exception stored in last_exc. -/
inductive Cause where
  /-- The network-level exception with this tag. -/
  | clientErr (tag : Nat)
  /-- The aiohttp.ClientResponseError raised by raise_for_status on this
  status (a subclass of ClientError, hence caught by the except clause). -/
  | httpErr (status : Nat)
deriving DecidableEq, Repr

/-- Result of fetch: the body on success together with the attempt that
succeeded, or the terminal RuntimeError after the loop, recording how many
attempts were made and the exception it was raised from (none when
last_exc was still None). -/
inductive FetchResult where
  | ok (body : String) (attempt : Nat)
  | exhausted (attempts : Nat) (cause : Option Cause)
deriving DecidableEq, Repr

/-- The retry loop of fetch: `remaining` counts the iterations of
range(1, MAX_RETRIES + 1) still to run, `attempt` is the 1-based number of
the current iteration, `lastExc` the current last_exc.  The three branches
mirror the source: a 403/429 response backs off and continues without
touching last_exc; any other response runs r.raise_for_status(), whose
ClientResponseError (status >= 400) is caught by the except clause,
stored in last_exc, and retried; a response below 400 returns its body;
a network error or timeout is caught, stored, retried.  When the range is
exhausted, raise RuntimeError(...) from last_exc. -/
def fetchGo (oracle : Nat → Outcome) :
    Nat → Nat → Option Cause → FetchResult
  | 0, attempt, lastExc => .exhausted (attempt - 1) lastExc
  | remaining + 1, attempt, lastExc =>
    match oracle attempt with
    | .resp s b =>
      if s = 403 ∨ s = 429 then
        fetchGo oracle remaining (attempt + 1) lastExc
      else if 400 ≤ s then
        fetchGo oracle remaining (attempt + 1) (some (.httpErr s))
      else
        .ok b attempt
    | .netErr tag =>
      fetchGo oracle remaining (attempt + 1) (some (.clientErr tag))

/-- async def fetch(session, url): MAX_RETRIES loop iterations, attempts
numbered from 1, last_exc starting as None. -/
def fetch (oracle : Nat → Outcome) : FetchResult :=
  fetchGo oracle MAX_RETRIES 1 none

/-- The exception recorded in last_exc by one attempt's outcome: network
errors and statuses >= 400 other than 403/429 are caught and stored;
403/429 and below-400 responses store nothing. -/
def causeOf : Outcome → Option Cause
  | .netErr tag => some (.clientErr tag)
  | .resp s _ =>
    if s = 403 ∨ s = 429 then none
    else if 400 ≤ s then some (.httpErr s)
    else none

/-- The value of last_exc after attempts a, a+1, ..., a+k-1 have all
failed, starting from an initial value: each attempt overwrites it
exactly when it catches an exception. -/
def lastExcAfter (oracle : Nat → Outcome) :
    Nat → Nat → Option Cause → Option Cause
  | _, 0, init => init
  | a, k + 1, init =>
    lastExcAfter oracle (a + 1) k
      (match causeOf (oracle a) with
       | some c => some c
       | none => init)

/-! ## Bounded worker pool (run_scraper: sem = asyncio.Semaphore(concurrency),
guarded_parse's "async with sem")

The counting permit discipline is embedded as a transition system: each
detail-page task of the current batch is pending, running (holding a
permit, i.e. inside "async with sem"), or done.  asyncio.Semaphore(N)
starts with N permits; acquire blocks while no permit is free and
decrements; release increments.  Fetch+extract work happens only while
the permit is held. -/

inductive TaskStatus where
  | pending
  | running
  | doneT
deriving DecidableEq, Repr

/-- Permit counter of the semaphore plus the status of every task of the
batch. -/
structure PoolState where
  permits : Nat
  tasks : List TaskStatus
deriving DecidableEq, Repr

/-- Number of fetch+extract tasks in flight: those inside "async with sem". -/
def inFlight (s : PoolState) : Nat :=
  s.tasks.countP (fun t => t == TaskStatus.running)

/-- The scheduler's possible moves: a pending task may enter the critical
section only by acquiring a permit (permits must be positive, and drop by
one); a running task leaving releases its permit. -/
inductive PoolStep : PoolState → PoolState → Prop
  | start (p : Nat) (l r : List TaskStatus) :
      PoolStep ⟨p + 1, l ++ TaskStatus.pending :: r⟩
        ⟨p, l ++ TaskStatus.running :: r⟩
  | finish (p : Nat) (l r : List TaskStatus) :
      PoolStep ⟨p, l ++ TaskStatus.running :: r⟩
        ⟨p + 1, l ++ TaskStatus.doneT :: r⟩

/-- The batch starts with asyncio.Semaphore(n) full and every one of the m
gathered tasks pending. -/
def initPool (n m : Nat) : PoolState :=
  ⟨n, List.replicate m TaskStatus.pending⟩

/-- States the batch can reach from its start by any interleaving. -/
def PoolReachable (n m : Nat) (s : PoolState) : Prop :=
  Relation.ReflTransGen PoolStep (initPool n m) s

/-! ## Dedup gateway and store (scraper.py lines 131-146, models/car_orm.py)

The persistence layer is a list of rows in insertion order; CarOrm.url
carries a uniqueness constraint, which INSERT .. ON CONFLICT
(url) DO NOTHING exploits: a row whose url is already present is skipped
silently. -/

/-- The car table. -/
structure Store where
  rows : List Car
deriving DecidableEq, Repr

/-- The url column of the table. -/
def Store.urls (st : Store) : List String := st.rows.map Car.url

/-- async def _fetch_existing_urls(db, urls): empty input short-circuits to
the empty set; otherwise SELECT CarOrm.url WHERE CarOrm.url IN urls. -/
def fetchExistingUrls (st : Store) (urls : List String) : List String :=
  if urls = [] then []
  else st.urls.filter (fun u => urls.contains u)

/-- One row of INSERT .. VALUES .. ON CONFLICT (url) DO NOTHING: skipped
when the url is already present (also when an earlier row of the same
statement just inserted it), inserted otherwise.  The Bool reports
whether the row counted towards rowcount. -/
def insertRow (st : Store) (r : Car) : Store × Bool :=
  if st.urls.contains r.url then (st, false)
  else (⟨st.rows ++ [r]⟩, true)

/-- One step of the bulk insert: thread the store and accumulate rowcount. -/
def bulkStep (acc : Store × Nat) (r : Car) : Store × Nat :=
  let s := insertRow acc.1 r
  (s.1, acc.2 + (if s.2 then 1 else 0))

/-- async def _bulk_insert_ignore_conflicts(db, rows): returns the affected
rowcount; empty input is a no-op returning 0. -/
def bulkInsertIgnoreConflicts (st : Store) (rows : List Car) : Store × Nat :=
  rows.foldl bulkStep (st, 0)

/-! ## Worker task and crawl loop (run_scraper, lines 149-235)

The network and the HTML parser are abstracted by oracles: `env` maps a
detail-page URL to its pre-selected Doc, none when its fetch or soup
raised terminally; `listing` maps a page number to the listing page HTML,
none when its fetch raised; `linksOf` extracts the a.address hrefs. -/

/-- async def guarded_parse(http, url): fetch then parse_car under the
semaphore; any exception is caught, logged, and None returned. -/
def guarded_parse (env : String → Option Doc) (now : Nat) (u : String) :
    Option Car :=
  match env u with
  | none => none
  | some d => parse_car d u now

/-- parsed_raw = await asyncio.gather(*[guarded_parse(http, u) for u in to_fetch]);
rows = [r for r in parsed_raw if r is not None]. -/
def gatherRows (env : String → Option Doc) (now : Nat) (urls : List String) :
    List Car :=
  (urls.map (guarded_parse env now)).filterMap id

/-- existing = await _fetch_existing_urls(db, links);
to_fetch = [u for u in links if u not in existing]. -/
def newLinks (st : Store) (links : List String) : List String :=
  links.filter (fun u => !((fetchExistingUrls st links).contains u))

/-- The body of run_scraper's while-loop once links were found on the page:
dedupe against the store, gather, filter, bulk-insert, commit.  Returns
the new store and the inserted count. -/
def processPage (env : String → Option Doc) (now : Nat) (st : Store)
    (links : List String) : Store × Nat :=
  bulkInsertIgnoreConflicts st (gatherRows env now (newLinks st links))

/-- Why run_scraper's while-loop ended. -/
inductive StopReason where
  /-- fetch(http, listing_url) raised: log.exception then break. -/
  | fetchFailed
  /-- links == []: "No more links. Stop." then break. -/
  | noLinks
deriving DecidableEq, Repr

/-- The while True loop of run_scraper, starting at a page number.  Fuel
only bounds the unrolling: (st, none) means the fuel ran out with the
loop still running, (st, some (reason, p)) that the loop broke at page p
for that reason.  On a productive page the store is updated and the page
counter advances by one after the inter-page delay. -/
def crawlLoop (env : String → Option Doc) (now : Nat)
    (listing : Nat → Option String) (linksOf : String → List String) :
    Nat → Store → Nat → Store × Option (StopReason × Nat)
  | 0, st, _ => (st, none)
  | fuel + 1, st, page =>
    match listing page with
    | none => (st, some (.fetchFailed, page))
    | some html =>
      if linksOf html = [] then (st, some (.noLinks, page))
      else
        let s := processPage env now st (linksOf html)
        crawlLoop env now listing linksOf fuel s.1 (page + 1)

/-- A detail page with no matching nodes at all, used as a concrete test
document. -/
def docSample : Doc :=
  ⟨none, none, none, none, none, none, none, 0, none, none⟩

/-- A concrete detail-page environment: URL "a" resolves to the sample
document, every other URL fails terminally. -/
def envSample : String → Option Doc :=
  fun u => if u = "a" then some docSample else none

/-! ## Helper lemmas -/

theorem stripNonDigits_data (s : String) :
    (stripNonDigits s).data = s.data.filter Char.isDigit := rfl

theorem stripNonDigits_all_digits (s : String) :
    (stripNonDigits s).data.all Char.isDigit = true := by
  rw [stripNonDigits_data, List.all_eq_true]
  intro c hc
  exact (List.mem_filter.mp hc).2

theorem pyIntOrZero_stripNonDigits_isSome (s : String) :
    (pyIntOrZero (stripNonDigits s)).isSome = true := by
  by_cases h : stripNonDigits s = ""
  · simp [pyIntOrZero, h]
  · have hall := stripNonDigits_all_digits s
    have hne : (stripNonDigits s).data ≠ [] := by
      intro hnil
      exact h (String.ext hnil)
    simp [pyIntOrZero, h, pyInt, hne, hall]

theorem parse_odometer_isSome (s : String) :
    (parse_odometer s).isSome = true := by
  obtain ⟨n, hn⟩ := Option.isSome_iff_exists.mp (pyIntOrZero_stripNonDigits_isSome s)
  simp [parse_odometer, hn]

theorem parse_car_eq (d : Doc) (u : String) (now : Nat) :
    ∃ p m, parse_car d u now = some
      { url := u
        title := safe_text d.h1
        price_usd := p
        odometer := m
        username := safe_text d.sellerName
        phone_number := only_digits (some (safe_text d.phoneSpan))
        image_url := pyOr (safe_attr d.pictureImg ImgNode.dataSrc)
          (safe_attr d.pictureImg ImgNode.src)
        images_count := d.previewGalleryCount
        car_number := safe_text d.carNumber
        car_vin := safe_text d.carVin
        datetime_found := now } := by
  obtain ⟨p, hp⟩ := Option.isSome_iff_exists.mp
    (pyIntOrZero_stripNonDigits_isSome
      (pyOr (safe_text d.sidePriceStrong) (safe_text d.priceValueStrong)))
  by_cases h : safe_text d.basicInfoOdo = ""
  · exact ⟨p, 0, by simp [parse_car, only_digits, h, hp]⟩
  · obtain ⟨m, hm⟩ := Option.isSome_iff_exists.mp
      (parse_odometer_isSome (safe_text d.basicInfoOdo))
    exact ⟨p, m, by simp [parse_car, only_digits, h, hp, hm]⟩

theorem parse_car_isSome (d : Doc) (u : String) (now : Nat) :
    (parse_car d u now).isSome = true := by
  obtain ⟨p, m, he⟩ := parse_car_eq d u now
  rw [he]
  rfl

theorem parse_car_url (d : Doc) (u : String) (now : Nat) (c : Car)
    (h : parse_car d u now = some c) : c.url = u := by
  obtain ⟨p, m, he⟩ := parse_car_eq d u now
  rw [he] at h
  cases Option.some.inj h
  rfl

theorem fetchGo_exhausted_cause (oracle : Nat → Outcome) (remaining : Nat) :
    ∀ (attempt : Nat) (init : Option Cause) (a : Nat) (c : Option Cause),
      fetchGo oracle remaining attempt init = .exhausted a c →
      c = lastExcAfter oracle attempt remaining init := by
  induction remaining with
  | zero =>
    intro attempt init a c h
    simp [fetchGo] at h
    simp [lastExcAfter, h.2]
  | succ remaining ih =>
    intro attempt init a c h
    rw [fetchGo] at h
    split at h
    case _ s b ho =>
      split at h
      case _ hblock =>
        have hc := ih (attempt + 1) init a c h
        simp [lastExcAfter, ho, causeOf, hblock, hc]
      case _ hblock =>
        split at h
        case _ h400 =>
          have hc := ih (attempt + 1) (some (.httpErr s)) a c h
          simp [lastExcAfter, ho, causeOf, hblock, h400, hc]
        case _ h400 =>
          exact absurd h (by simp)
    case _ tag ho =>
      have hc := ih (attempt + 1) (some (.clientErr tag)) a c h
      simp [lastExcAfter, ho, causeOf, hc]

/-! ## Claim theorems -/

/-- C1: for every raw odometer string whose stripped digits parse to
integer n (including the empty-digits case parsing to 0 via the `or 0`
guard), parse_odometer returns n * 1000 when n < 1000 and n unchanged
otherwise. -/
theorem odometer_normalization (s : String) (n : Nat)
    (h : pyIntOrZero (stripNonDigits s) = some n) :
    parse_odometer s = some (if n < 1000 then n * 1000 else n) := by
  simp [parse_odometer, h]

/-- C1 witness: "95 тис. км" strips to digits 95, and parse_odometer
normalizes it to 95000. -/
theorem odometer_normalization_witness :
    pyIntOrZero (stripNonDigits "95 тис. км") = some 95 ∧
      parse_odometer "95 тис. км" = some 95000 := by
  have h := odometer_normalization "95 тис. км" 95 (by decide)
  exact ⟨by decide, by simpa using h⟩

/-- C7: for every input string, only_digits produces a string made of
digit characters only, and its characters are exactly the digit
characters of the input in their original relative order (a sublist of
the input, equal to its digit filter). -/
theorem phone_digits_only_and_order (s : String) :
    (only_digits (some s)).data.all Char.isDigit = true ∧
      List.Sublist (only_digits (some s)).data s.data ∧
      (only_digits (some s)).data = s.data.filter Char.isDigit := by
  refine ⟨stripNonDigits_all_digits s, ?_, rfl⟩
  exact List.filter_sublist s.data

/-- C10: numeric field normalization is total: parse_odometer never fails
and returns 0 on a string with no digit characters (also the empty
string), only_digits of a None input is the empty string, and parse_car -
whose int() calls are the only fallible steps - always returns a record. -/
theorem normalization_total (s t : String) (d : Doc) (u : String) (now : Nat)
    (h : s.data.all (fun c => !c.isDigit) = true) :
    parse_odometer s = some 0 ∧ (parse_odometer t).isSome = true ∧
      only_digits none = "" ∧ (parse_car d u now).isSome = true := by
  refine ⟨?_, parse_odometer_isSome t, rfl, parse_car_isSome d u now⟩
  have hnil : (stripNonDigits s).data = [] := by
    rw [stripNonDigits_data, List.filter_eq_nil_iff]
    intro c hc
    have := (List.all_eq_true.mp h) c hc
    simpa using this
  have hempty : stripNonDigits s = "" := String.ext hnil
  simp [parse_odometer, pyIntOrZero, hempty]

/-- C10 witness: the digit-free string "км" maps to odometer 0, and a
concrete empty document extracts to a record. -/
theorem normalization_total_witness :
    parse_odometer "км" = some 0 ∧
      (parse_odometer "").isSome = true ∧
      only_digits none = "" ∧
      (parse_car ⟨none, none, none, none, none, none, none, 0, none, none⟩
        "u" 0).isSome = true := by
  have h := normalization_total "км" ""
    ⟨none, none, none, none, none, none, none, 0, none, none⟩ "u" 0 (by decide)
  exact h

/-- C5: a URL whose every attempt returns status 429 exhausts exactly
MAX_RETRIES attempts and then terminates with the RuntimeError raised
after the loop; the loop is bounded, never infinite. -/
theorem retry_bound_429 (oracle : Nat → Outcome)
    (h : ∀ i, 1 ≤ i → i ≤ MAX_RETRIES → ∃ b, oracle i = .resp 429 b) :
    fetch oracle = .exhausted MAX_RETRIES none := by
  obtain ⟨b1, h1⟩ := h 1 (by decide) (by decide)
  obtain ⟨b2, h2⟩ := h 2 (by decide) (by decide)
  obtain ⟨b3, h3⟩ := h 3 (by decide) (by decide)
  simp [fetch, MAX_RETRIES, fetchGo, h1, h2, h3]

/-- C5 witness: the constant-429 oracle exhausts after 3 attempts. -/
theorem retry_bound_429_witness :
    fetch (fun _ => Outcome.resp 429 "") = .exhausted MAX_RETRIES none :=
  retry_bound_429 (fun _ => Outcome.resp 429 "") (fun _ _ _ => ⟨"", rfl⟩)

/-- C4 counterexample: a URL whose every attempt returns status 404 (a
non-2xx status other than 403/429) is NOT failed immediately:
r.raise_for_status() raises aiohttp.ClientResponseError, a subclass of
ClientError, which the except clause catches and retries; all
MAX_RETRIES = 3 attempts are consumed before the terminal error. -/
theorem non2xx_immediate_fail_counterexample :
    fetch (fun _ => Outcome.resp 404 "") =
        .exhausted MAX_RETRIES (some (.httpErr 404)) ∧
      MAX_RETRIES ≠ 1 := by
  exact ⟨by decide, by decide⟩

/-- C4 amended: a response status at least 400 other than 403 and 429
raises ClientResponseError, which is caught like a network error and
retried with backoff; if every attempt yields such a status the fetch
ends after MAX_RETRIES attempts with the exhausted error carrying that
HTTP error as its cause (and a non-2xx status below 400 returns the body
as success, since raise_for_status only fires at 400 and above). -/
theorem non2xx_retried (oracle : Nat → Outcome) (s : Nat)
    (hs : 400 ≤ s) (h403 : s ≠ 403) (h429 : s ≠ 429)
    (h : ∀ i, 1 ≤ i → i ≤ MAX_RETRIES → ∃ b, oracle i = .resp s b) :
    fetch oracle = .exhausted MAX_RETRIES (some (.httpErr s)) := by
  obtain ⟨b1, h1⟩ := h 1 (by decide) (by decide)
  obtain ⟨b2, h2⟩ := h 2 (by decide) (by decide)
  obtain ⟨b3, h3⟩ := h 3 (by decide) (by decide)
  simp [fetch, MAX_RETRIES, fetchGo, h1, h2, h3, hs, h403, h429]

/-- C4 amended witness: the constant-500 oracle is retried to exhaustion
and the terminal error carries the 500 HTTP error. -/
theorem non2xx_retried_witness :
    fetch (fun _ => Outcome.resp 500 "") =
      .exhausted MAX_RETRIES (some (.httpErr 500)) :=
  non2xx_retried (fun _ => Outcome.resp 500 "") 500 (by decide) (by decide)
    (by decide) (fun _ _ _ => ⟨"", rfl⟩)

/-- C6 counterexample: when every attempt fails with blocking status 429,
the 403/429 branch continues before any exception is caught, so last_exc
stays None and the exhausted RuntimeError is raised from None: it does
not carry the blocking status as its cause. -/
theorem exhausted_cause_counterexample :
    fetch (fun _ => Outcome.resp 429 "x") = .exhausted MAX_RETRIES none ∧
      fetch (fun _ => Outcome.resp 429 "x") ≠
        .exhausted MAX_RETRIES (some (.httpErr 429)) := by
  exact ⟨by decide, by decide⟩

/-- C6 amended: when fetch exhausts all attempts, the terminal error
carries the last exception caught during the attempts (the last network
error, timeout, or HTTP >= 400 error); attempts blocked with 403/429
record no exception, so a run whose failures were all blocking responses
carries no cause. -/
theorem exhausted_cause (oracle : Nat → Outcome) (a : Nat) (c : Option Cause)
    (h : fetch oracle = .exhausted a c) :
    c = lastExcAfter oracle 1 MAX_RETRIES none :=
  fetchGo_exhausted_cause oracle MAX_RETRIES 1 none a c h

/-- C6 amended witness: a run failing by network error, then 429, then 500
exhausts with the 500 HTTP error as cause, the last recorded exception. -/
theorem exhausted_cause_witness :
    (some (Cause.httpErr 500) : Option Cause) =
      lastExcAfter
        (fun i => if i = 1 then Outcome.netErr 7
          else if i = 2 then Outcome.resp 429 "" else Outcome.resp 500 "")
        1 MAX_RETRIES none :=
  exhausted_cause
    (fun i => if i = 1 then Outcome.netErr 7
      else if i = 2 then Outcome.resp 429 "" else Outcome.resp 500 "")
    MAX_RETRIES (some (Cause.httpErr 500)) (by decide)

theorem filterMap_eq_filterMap_filter {α β : Type} (g : α → Option β)
    (l : List α) :
    l.filterMap g = (l.filter (fun a => (g a).isSome)).filterMap g := by
  induction l with
  | nil => rfl
  | cons a l ih =>
    cases hg : g a with
    | none => simp [List.filterMap_cons, List.filter_cons, hg, ih]
    | some b => simp [List.filterMap_cons, List.filter_cons, hg, ih]

theorem length_filterMap_eq_countP {α β : Type} (g : α → Option β)
    (l : List α) :
    (l.filterMap g).length = l.countP (fun a => (g a).isSome) := by
  induction l with
  | nil => rfl
  | cons a l ih =>
    cases hg : g a with
    | none => simp [List.filterMap_cons, List.countP_cons, hg, ih]
    | some b => simp [List.filterMap_cons, List.countP_cons, hg, ih]

theorem gatherRows_eq_filterMap (env : String → Option Doc) (now : Nat)
    (urls : List String) :
    gatherRows env now urls = urls.filterMap (guarded_parse env now) := by
  simp [gatherRows, List.filterMap_map, Function.comp]

/-- C3: a fetch-or-extract failure on one URL is caught inside
guarded_parse and never aborts the batch: the gathered rows are exactly
the records of the URLs whose guarded_parse succeeded, in particular
their number is the number of succeeding URLs. -/
theorem batch_isolation (env : String → Option Doc) (now : Nat)
    (urls : List String) :
    gatherRows env now urls =
        (urls.filter (fun u => (guarded_parse env now u).isSome)).filterMap
          (guarded_parse env now) ∧
      (gatherRows env now urls).length =
        urls.countP (fun u => (guarded_parse env now u).isSome) := by
  rw [gatherRows_eq_filterMap]
  exact ⟨filterMap_eq_filterMap_filter _ urls,
    length_filterMap_eq_countP _ urls⟩

theorem bulk_shift (rows : List Car) : ∀ (st : Store) (k : Nat),
    rows.foldl bulkStep (st, k) =
      ((rows.foldl bulkStep (st, 0)).1, k + (rows.foldl bulkStep (st, 0)).2) := by
  induction rows with
  | nil => intro st k; rfl
  | cons r rows ih =>
    intro st k
    simp only [List.foldl_cons, bulkStep]
    rw [ih ((insertRow st r).1) (k + _), ih ((insertRow st r).1) (0 + _)]
    simp [Nat.add_assoc]

theorem bulk_cons (st : Store) (r : Car) (rows : List Car) :
    bulkInsertIgnoreConflicts st (r :: rows) =
      ((bulkInsertIgnoreConflicts (insertRow st r).1 rows).1,
        (if (insertRow st r).2 then 1 else 0) +
          (bulkInsertIgnoreConflicts (insertRow st r).1 rows).2) := by
  simp only [bulkInsertIgnoreConflicts, List.foldl_cons, bulkStep]
  rw [bulk_shift rows ((insertRow st r).1) (0 + _)]
  simp

theorem insertRow_urls (st : Store) (r : Car) :
    (insertRow st r).1.urls =
      if st.urls.contains r.url then st.urls else st.urls ++ [r.url] := by
  unfold insertRow
  by_cases h : st.urls.contains r.url
  · rw [if_pos h, if_pos h]
  · rw [if_neg h, if_neg h]
    simp [Store.urls]

theorem bulk_mem_urls (rows : List Car) : ∀ (st : Store) (u : String),
    u ∈ (bulkInsertIgnoreConflicts st rows).1.urls ↔
      u ∈ st.urls ∨ u ∈ rows.map Car.url := by
  induction rows with
  | nil => intro st u; simp [bulkInsertIgnoreConflicts]
  | cons r rows ih =>
    intro st u
    rw [bulk_cons]
    simp only [List.map_cons, List.mem_cons]
    rw [ih, insertRow_urls]
    by_cases h : st.urls.contains r.url
    · have hr : r.url ∈ st.urls := List.elem_iff.mp h
      rw [if_pos h]
      constructor
      · intro hc
        rcases hc with hc | hc
        · exact Or.inl hc
        · exact Or.inr (Or.inr hc)
      · intro hc
        rcases hc with hc | hc | hc
        · exact Or.inl hc
        · exact Or.inl (hc ▸ hr)
        · exact Or.inr hc
    · rw [if_neg h]
      simp [List.mem_append]
      tauto

theorem insertRow_nodup (st : Store) (r : Car) (h : st.urls.Nodup) :
    (insertRow st r).1.urls.Nodup := by
  rw [insertRow_urls]
  by_cases hc : st.urls.contains r.url
  · rwa [if_pos hc]
  · rw [if_neg hc]
    have hr : r.url ∉ st.urls := fun hm => hc (List.elem_iff.mpr hm)
    simp [List.nodup_append, h, hr]

theorem bulk_nodup (rows : List Car) : ∀ (st : Store),
    st.urls.Nodup → (bulkInsertIgnoreConflicts st rows).1.urls.Nodup := by
  induction rows with
  | nil => intro st h; exact h
  | cons r rows ih =>
    intro st h
    rw [bulk_cons]
    exact ih ((insertRow st r).1) (insertRow_nodup st r h)

theorem mem_gatherRows (env : String → Option Doc) (now : Nat)
    (urls : List String) (c : Car) :
    c ∈ gatherRows env now urls ↔
      ∃ u ∈ urls, guarded_parse env now u = some c := by
  rw [gatherRows_eq_filterMap]
  simp [List.mem_filterMap]

theorem gatherRows_eq_nil (env : String → Option Doc) (now : Nat)
    (urls : List String)
    (h : ∀ u ∈ urls, guarded_parse env now u = none) :
    gatherRows env now urls = [] := by
  rw [gatherRows_eq_filterMap, List.filterMap_eq_nil_iff]
  exact h

theorem mem_fetchExistingUrls (st : Store) (links : List String) (v : String) :
    v ∈ fetchExistingUrls st links ↔ v ∈ st.urls ∧ v ∈ links := by
  by_cases h : links = []
  · simp [fetchExistingUrls, h]
  · simp [fetchExistingUrls, h, List.mem_filter, List.elem_iff]

theorem mem_newLinks (st : Store) (links : List String) (u : String) :
    u ∈ newLinks st links ↔ u ∈ links ∧ u ∉ st.urls := by
  simp only [newLinks, List.mem_filter, Bool.not_eq_true']
  constructor
  · rintro ⟨hl, hc⟩
    refine ⟨hl, fun hst => ?_⟩
    have hmem : u ∈ fetchExistingUrls st links :=
      (mem_fetchExistingUrls st links u).mpr ⟨hst, hl⟩
    have htrue : (fetchExistingUrls st links).contains u = true :=
      List.elem_iff.mpr hmem
    exact Bool.noConfusion (htrue.symm.trans hc)
  · rintro ⟨hl, hst⟩
    refine ⟨hl, ?_⟩
    rw [Bool.eq_false_iff]
    intro hc
    have hmem := List.elem_iff.mp hc
    exact hst ((mem_fetchExistingUrls st links u).mp hmem).1

theorem guarded_parse_url (env : String → Option Doc) (now : Nat)
    (u : String) (c : Car) (h : guarded_parse env now u = some c) :
    c.url = u := by
  unfold guarded_parse at h
  cases he : env u with
  | none => rw [he] at h; cases h
  | some d => rw [he] at h; exact parse_car_url d u now c h

theorem guarded_parse_isSome (env : String → Option Doc) (now : Nat)
    (u : String) :
    (guarded_parse env now u).isSome = (env u).isSome := by
  unfold guarded_parse
  cases he : env u with
  | none => rfl
  | some d => simp [parse_car_isSome]

/-- C2: over one listing page, every URL already stored is excluded from
fetching by the existence check; the insert skips url conflicts, so a
store with unique urls keeps unique urls; and a second run of the page
body over the same links (at any later timestamp) inserts zero
additional rows and leaves the store unchanged. -/
theorem dedupe_idempotent (env : String → Option Doc) (now now2 : Nat)
    (st : Store) (links : List String) (hnd : st.urls.Nodup) :
    (∀ u ∈ st.urls, u ∉ newLinks st links) ∧
      (processPage env now st links).1.urls.Nodup ∧
      processPage env now2 (processPage env now st links).1 links =
        ((processPage env now st links).1, 0) := by
  refine ⟨?_, ?_, ?_⟩
  · intro u hu hmem
    exact ((mem_newLinks st links u).mp hmem).2 hu
  · exact bulk_nodup _ st hnd
  · have hsub : ∀ u, u ∈ st.urls → u ∈ (processPage env now st links).1.urls := by
      intro u hu
      exact (bulk_mem_urls _ st u).mpr (Or.inl hu)
    have hnone : ∀ u ∈ newLinks (processPage env now st links).1 links,
        guarded_parse env now2 u = none := by
      intro u hu
      obtain ⟨hul, hnotin1⟩ :=
        (mem_newLinks (processPage env now st links).1 links u).mp hu
      cases hg : guarded_parse env now2 u with
      | none => rfl
      | some c =>
        exfalso
        have henv : (env u).isSome = true := by
          rw [← guarded_parse_isSome env now2 u, hg]
          rfl
        have hsome1 : (guarded_parse env now u).isSome = true := by
          rw [guarded_parse_isSome env now u]
          exact henv
        obtain ⟨c1, hc1⟩ := Option.isSome_iff_exists.mp hsome1
        have hc1u : c1.url = u := guarded_parse_url env now u c1 hc1
        have hnotst : u ∉ st.urls := fun hin => hnotin1 (hsub u hin)
        have hnew : u ∈ newLinks st links :=
          (mem_newLinks st links u).mpr ⟨hul, hnotst⟩
        have hrow : c1 ∈ gatherRows env now (newLinks st links) :=
          (mem_gatherRows env now (newLinks st links) c1).mpr ⟨u, hnew, hc1⟩
        have hurl1 : u ∈ (processPage env now st links).1.urls := by
          refine (bulk_mem_urls _ st u).mpr (Or.inr ?_)
          rw [List.mem_map]
          exact ⟨c1, hrow, hc1u⟩
        exact hnotin1 hurl1
    show bulkInsertIgnoreConflicts (processPage env now st links).1
        (gatherRows env now2 (newLinks (processPage env now st links).1 links)) =
      ((processPage env now st links).1, 0)
    rw [gatherRows_eq_nil env now2 _ hnone]
    rfl

/-- C2 witness: a first run over links ["a", "b"] (where "a" extracts and
"b" fails) yields a url-unique store, and a second run over the same
links inserts nothing and leaves the store unchanged. -/
theorem dedupe_idempotent_witness :
    (processPage envSample 0 ⟨[]⟩ ["a", "b"]).1.urls.Nodup ∧
      processPage envSample 1 (processPage envSample 0 ⟨[]⟩ ["a", "b"]).1
          ["a", "b"] =
        ((processPage envSample 0 ⟨[]⟩ ["a", "b"]).1, 0) := by
  have h := dedupe_idempotent envSample 0 1 ⟨[]⟩ ["a", "b"]
    (by simp [Store.urls])
  exact ⟨h.2.1, h.2.2⟩

/-- C8: the crawl loop's only exits are a failed listing fetch and a page
with zero links (stopping there, without attempting the next page), for
every page number - there is no maximum-page cap; on any other page it
processes the links and advances the page counter by exactly one. -/
theorem crawl_loop_exits (env : String → Option Doc) (now : Nat)
    (listing : Nat → Option String) (linksOf : String → List String)
    (fuel : Nat) (st : Store) (page : Nat) :
    (listing page = none →
        crawlLoop env now listing linksOf (fuel + 1) st page =
          (st, some (.fetchFailed, page))) ∧
      (∀ html, listing page = some html → linksOf html = [] →
        crawlLoop env now listing linksOf (fuel + 1) st page =
          (st, some (.noLinks, page))) ∧
      (∀ html, listing page = some html → linksOf html ≠ [] →
        crawlLoop env now listing linksOf (fuel + 1) st page =
          crawlLoop env now listing linksOf fuel
            (processPage env now st (linksOf html)).1 (page + 1)) := by
  refine ⟨fun h => ?_, fun html h he => ?_, fun html h hne => ?_⟩
  · simp [crawlLoop, h]
  · simp [crawlLoop, h, he]
  · simp [crawlLoop, h, hne]

/-- C8 witness: with a listing that has links on page 1 only, one loop
step from page 1 processes the page and continues at page 2; the store
stays empty because the only link fails to extract. -/
theorem crawl_loop_exits_witness :
    crawlLoop (fun _ => none) 0 (fun p => if p = 1 then some "L" else none)
        (fun h => if h = "L" then ["u"] else []) 1 ⟨[]⟩ 1 =
      crawlLoop (fun _ => none) 0 (fun p => if p = 1 then some "L" else none)
        (fun h => if h = "L" then ["u"] else []) 0
        (processPage (fun _ => none) 0 ⟨[]⟩ ["u"]).1 2 := by
  have h := (crawl_loop_exits (fun _ => none) 0
    (fun p => if p = 1 then some "L" else none)
    (fun h => if h = "L" then ["u"] else []) 0 ⟨[]⟩ 1).2.2 "L"
    (by decide) (by decide)
  simpa using h

/-- C9: in every state the bounded worker pool can reach from a batch of m
tasks with asyncio.Semaphore(n), at most n fetch+extract tasks are in
flight, whatever the batch size and interleaving. -/
theorem pool_ceiling (n m : Nat) (s : PoolState) (h : PoolReachable n m s) :
    inFlight s ≤ n := by
  have hinv : s.permits + inFlight s = n := by
    induction h with
    | refl =>
      have e1 : ∀ k, List.countP (fun t => t == TaskStatus.running)
          (List.replicate k TaskStatus.pending) = 0 := by
        intro k
        induction k with
        | zero => rfl
        | succ k ih => simp [List.replicate_succ, List.countP_cons, ih]

      simp [initPool, inFlight, e1]
    | tail hsteps hstep ih =>
      cases hstep with
      | start p l r =>
        have e2 : (TaskStatus.pending == TaskStatus.running) = false := rfl
        have e3 : (TaskStatus.running == TaskStatus.running) = true := rfl
        simp [inFlight, List.countP_append, List.countP_cons, e2, e3] at ih ⊢
        omega
      | finish p l r =>
        have e3 : (TaskStatus.running == TaskStatus.running) = true := rfl
        have e4 : (TaskStatus.doneT == TaskStatus.running) = false := rfl
        simp [inFlight, List.countP_append, List.countP_cons, e3, e4] at ih ⊢
        omega
  omega

/-- C9 witness: with limit 2 and a batch of 5, the state after one task
acquired the semaphore is reachable and its in-flight count is within
the ceiling. -/
theorem pool_ceiling_witness :
    inFlight ⟨1, [TaskStatus.running, TaskStatus.pending, TaskStatus.pending,
      TaskStatus.pending, TaskStatus.pending]⟩ ≤ 2 := by
  apply pool_ceiling 2 5
  exact Relation.ReflTransGen.single
    (PoolStep.start 1 [] (List.replicate 4 TaskStatus.pending))

end AutoRia
